import Mathlib

/-!
Shallow embedding of the calculation layer of the Calculator repository
(Streamlit financial calculators), together with theorems checking the
natural-language specification against it.

Python floating-point arithmetic is modelled as exact real arithmetic.
Python `float ** float` is modelled by `Real.rpow`, `math.exp` by
`Real.exp` and `math.log` by `Real.log`.  Dynamically typed arguments
whose Python type is checked at run time are modelled by small sum
types (`PyNum`, `CompoundType`).  Raised Python exceptions are modelled
by `Except PyExc`.  The `float('inf')` overflow sentinel is modelled by
a dedicated constructor of the result type, since real arithmetic has
no infinity; the code's `== float('inf')` propagation checks can never
fire in the real-valued model and are noted where they occur.
-/

noncomputable section

/-- A raised Python exception, by class and message. -/
inductive PyExc
  | valueError (msg : String)
  | typeError (msg : String)
  | keyError (msg : String)
  deriving DecidableEq

/-- A dynamically typed Python number: either an `int` or a `float`.
`isinstance(x, int)` holds exactly for the first constructor. -/
inductive PyNum
  | int (n : ℤ)
  | float (x : ℝ)

/-- The `compound_type` argument of the interest calculators: either a
string (such as `"continuously"` or `"annually"`) or an `int`. -/
inductive CompoundType
  | str (s : String)
  | int (n : ℤ)
  deriving DecidableEq

/-- Result of the old `compound_interest`: either the pair
`(final_amount, total_interest)` or the `(inf, inf)` overflow sentinel. -/
inductive GR2
  | overflow
  | val (finalAmount totalInterest : ℝ)

/-- Result of `future_value_with_contributions`: either the triple
`(final_amount, total_interest, total_contributions)` or the
`(inf, inf, inf)` overflow sentinel. -/
inductive GR3
  | overflow
  | val3 (finalAmount totalInterest totalContributions : ℝ)

/-! ## Loan Calculator (src/pages/2_🏦_Loan_Calculator.py) -/

/-- `numpy_financial.pmt(rate, nper, pv)` with the default `fv=0`,
`when='end'`: the library computes `temp = (1+rate)**nper` and
`fact = nper` if `rate == 0` else `(temp - 1)/rate`, and returns
`-(fv + pv*temp)/fact`.  (External library dependency of the loan
calculator, reproduced from the numpy-financial source/documentation.) -/
def npf_pmt (rate nper pv : ℝ) : ℝ :=
  let temp := (1 + rate) ^ nper
  let fact := if rate = 0 then nper else (temp - 1) / rate;
  -(0 + pv * temp) / fact

/-- `calculate_loan_payment` (lines 8-26): fixed periodic loan payment. -/
def calculate_loan_payment (principal annual_rate years payments_per_year : ℝ) :
    Except PyExc ℝ :=
  if principal ≤ 0 then .ok 0
  else if annual_rate < 0 then .error (.valueError "Annual rate cannot be negative.")
  else if years ≤ 0 then .error (.valueError "Loan term must be positive.")
  else if payments_per_year ≤ 0 then
    .error (.valueError "Payments per year must be positive.")
  else if annual_rate = 0 then .ok (principal / (years * payments_per_year))
  else
    let periodic_rate := annual_rate / payments_per_year
    let num_payments := years * payments_per_year
    .ok (-(npf_pmt periodic_rate num_payments principal))

/-- Whether a loan-payment result is a raised `ValueError` — the
spec's InvalidArgument failure mode. -/
def isValueError (res : Except PyExc ℝ) : Prop :=
  match res with
  | .error (.valueError _) => True
  | _ => False

/-- One row of the amortization schedule (the dict appended at lines 67-74). -/
structure Row where
  paymentNum : ℕ
  startingBalance : ℝ
  payment : ℝ
  principalPaid : ℝ
  interestPaid : ℝ
  endingBalance : ℝ

/-- The mutable state of the `while` loop of `calculate_amortization`
(lines 44-47): `current_balance`, `payment_num`, `total_interest_paid`,
`schedule`, `total_payment`. -/
structure LoopState where
  balance : ℝ
  paymentNum : ℕ
  totalInterest : ℝ
  schedule : List Row
  totalPayment : ℝ

/-- One iteration of the loop body (lines 50-74): computes the interest
and principal portions, clamps the last payment, subtracts from the
balance, applies the float-precision fix for a negative balance, and
appends the row. -/
def amortStep (periodic_rate : ℝ) (s : LoopState) : LoopState :=
  let pn := s.paymentNum + 1
  let interest_paid := s.balance * periodic_rate
  let pp0 := s.totalPayment - interest_paid
  let clamped := pp0 > s.balance
  let pp1 := if clamped then s.balance else pp0
  let tp1 := if clamped then s.balance + interest_paid else s.totalPayment
  let bal1 := s.balance - pp1
  let ti1 := s.totalInterest + interest_paid
  let neg := bal1 < 0
  let pp2 := if neg then pp1 + bal1 else pp1
  let bal2 := if neg then 0 else bal1
  let row : Row :=
    { paymentNum := pn
      startingBalance := bal2 + pp2
      payment := tp1
      principalPaid := pp2
      interestPaid := interest_paid
      endingBalance := bal2 }
  { balance := bal2
    paymentNum := pn
    totalInterest := ti1
    schedule := s.schedule ++ [row]
    totalPayment := tp1 }

/-- The `while` loop of lines 49-80, driven by an explicit fuel counter.
The loop condition is `current_balance > 0.01 and payment_num < cap`
with `cap = years * payments_per_year * 2`; after the body the loop
breaks when the balance is `≤ 0.01`, otherwise `total_payment` is reset
to `regular_payment + extra_payment` for the next iteration.  The fuel
passed by `calculate_amortization` (`⌈cap⌉₊ + 1`) strictly exceeds the
number of iterations the cap allows, so fuel exhaustion never decides
the result. -/
def amortLoop (periodic_rate regular_payment extra_payment cap : ℝ) :
    ℕ → LoopState → LoopState
  | 0, s => s
  | fuel + 1, s =>
    if s.balance > 0.01 ∧ (s.paymentNum : ℝ) < cap then
      let s' := amortStep periodic_rate s
      if s'.balance ≤ 0.01 then s'
      else
        amortLoop periodic_rate regular_payment extra_payment cap fuel
          { s' with totalPayment := regular_payment + extra_payment }
    else s

/-- `amortization_df["Payment"].sum()` (line 84). -/
def sumPayments (rows : List Row) : ℝ := (rows.map Row.payment).sum

/-- Sum of the `Principal Paid` column, the quantity the spec's
amortization invariant talks about. -/
def sumPrincipal (rows : List Row) : ℝ := (rows.map Row.principalPaid).sum

/-- The value returned by `calculate_amortization`: the schedule
dataframe plus the tuple of numeric summary components that follow it
in the Python return statement, in order.  The normal return (line 86)
carries four numbers `(regular_payment, total_paid,
total_interest_paid, payment_num)`; the `principal <= 0` early return
(line 31) carries five zeros — the list length records the tuple arity. -/
structure AmortResult where
  df : List Row
  summary : List ℝ

/-- `calculate_amortization` (lines 29-86).  Notes:
* line 31 returns a six-element tuple (empty dataframe plus five
  zeros), one element more than the normal five-element return;
* `pandas.DataFrame(schedule)` for an empty `schedule` has no
  `"Payment"` column, so line 84 raises `KeyError` when the loop ran
  zero iterations. -/
def calculate_amortization (principal annual_rate years payments_per_year
    extra_payment : ℝ) : Except PyExc AmortResult :=
  if principal ≤ 0 then .ok ⟨[], [0, 0, 0, 0, 0]⟩
  else
    match calculate_loan_payment principal annual_rate years payments_per_year with
    | .error e => .error e
    | .ok rp =>
      let regular_payment :=
        if rp = 0 ∧ principal > 0 then principal / (years * payments_per_year) else rp
      let periodic_rate := annual_rate / payments_per_year
      let cap := years * payments_per_year * 2
      let out := amortLoop periodic_rate regular_payment extra_payment cap
        (⌈cap⌉₊ + 1)
        { balance := principal
          paymentNum := 0
          totalInterest := 0
          schedule := []
          totalPayment := regular_payment + extra_payment }
      if out.schedule.isEmpty then .error (.keyError "Payment")
      else
        .ok ⟨out.schedule,
          [regular_payment, sumPayments out.schedule, out.totalInterest,
            (out.paymentNum : ℝ)]⟩

/-! ## Interest Calculator (src/pages/1_💰_Interest_Calculator.py) -/

/-- Future value of the initial principal (lines 59-87 of
`future_value_with_contributions`).  `Option.none` models the early
`return float('inf'), float('inf'), float('inf')` overflow returns.
The `try/except ValueError` around the precise log check cannot fire
because both log arguments are guarded to be positive. -/
def principalFV (principal rate time : ℝ) (is_continuous : Bool)
    (n_compound : ℤ) : Except PyExc (Option ℝ) :=
  if principal > 0 then
    if is_continuous then
      if rate = 0 then .ok (some principal)
      else if rate * time > 700 then .ok none
      else .ok (some (principal * Real.exp (rate * time)))
    else
      if n_compound ≤ 0 then
        .error (.valueError "Compounding frequency (n) must be positive.")
      else if rate = 0 then .ok (some principal)
      else
        let base := 1 + rate / (n_compound : ℝ)
        let exponent := (n_compound : ℝ) * time
        if exponent > 10000 ∧ base > 1.00001 ∧
            Real.log (if principal > 0 then principal else 1) +
              exponent * Real.log (if base > 1 then base else 1) > 700 then
          .ok none
        else .ok (some (principal * base ^ exponent))
  else .ok (some 0)

/-- Future value of the contribution stream plus total contributions
(lines 91-119).  `Option.none` models the overflow returns.  The
`annuity_fv == float('inf') or fv_factor == float('inf')` check of
line 118 cannot fire in the real-valued model. -/
def annuityFV (rate time : ℝ) (is_continuous : Bool) (n_compound : ℤ)
    (contribution_amount : ℝ) (contribution_frequency : ℤ) :
    Option (ℝ × ℝ) :=
  if contribution_amount > 0 ∧ contribution_frequency > 0 ∧ time > 0 then
    let total_contributions :=
      contribution_amount * (contribution_frequency : ℝ) * time
    if is_continuous then
      let annual_contribution := contribution_amount * (contribution_frequency : ℝ)
      if rate = 0 then some (annual_contribution * time, total_contributions)
      else if rate * time > 700 then none
      else
        some (annual_contribution * (Real.exp (rate * time) - 1) / rate,
          total_contributions)
    else
      let num_total_periods := (n_compound : ℝ) * time
      let periodic_rate := rate / (n_compound : ℝ)
      if periodic_rate = 0 then
        some (contribution_amount * num_total_periods, total_contributions)
      else
        let fv_factor := ((1 + periodic_rate) ^ num_total_periods - 1) / periodic_rate
        some (contribution_amount * fv_factor, total_contributions)
  else some (0, 0)

/-- `future_value_with_contributions` (lines 6-140).  The numeric
`isinstance` check on `principal`, `rate`, `time` and
`contribution_amount` (line 35) always passes in the model because
those arguments are real numbers; the `isinstance(contribution_frequency,
int)` check of line 37 is the first check that can fail.  The
`final_amount == float('inf')` propagation check of line 129 cannot
fire in the real-valued model. -/
def future_value_with_contributions (principal rate time : ℝ)
    (compound_type : CompoundType) (contribution_amount : ℝ)
    (contribution_frequency : PyNum) : Except PyExc GR3 :=
  match contribution_frequency with
  | .float _ => .error (.typeError "Contribution frequency must be an integer.")
  | .int freq =>
    if principal < 0 then .error (.valueError "Principal cannot be negative.")
    else if rate < 0 then .error (.valueError "Interest rate cannot be negative.")
    else if time < 0 then .error (.valueError "Time cannot be negative.")
    else if contribution_amount < 0 then
      .error (.valueError "Contribution amount cannot be negative.")
    else if freq < 0 then
      .error (.valueError "Contribution frequency cannot be negative.")
    else
      let is_continuous : Bool := compound_type = CompoundType.str "continuously"
      let n? : Except PyExc ℤ :=
        match compound_type with
        | .int m =>
          if m ≤ 0 then .error (.valueError "Compounding times per year must be positive.")
          else .ok m
        | .str _ => .ok 1
      match n? with
      | .error e => .error e
      | .ok n_compound =>
        match principalFV principal rate time is_continuous n_compound with
        | .error e => .error e
        | .ok none => .ok .overflow
        | .ok (some principal_fv) =>
          match annuityFV rate time is_continuous n_compound
              contribution_amount freq with
          | none => .ok .overflow
          | some (annuity_fv, total_contributions) =>
            let final_amount := principal_fv + annuity_fv
            let total_interest :=
              max 0 (final_amount - principal - total_contributions)
            .ok (.val3 final_amount total_interest total_contributions)

/-! ## Old Interest Calculator (src/Old/Advanced Interest Calc) -/

/-- Packages `final_amount` with
`total_interest = max(0, final_amount - principal)` (lines 60-61). -/
def mkGR2 (principal final_amount : ℝ) : GR2 :=
  .val final_amount (max 0 (final_amount - principal))

/-- `compound_interest` (lines 7-68 of the old calculator).  The
numeric `isinstance` check of line 14 always passes in the model.
`Option.none` in `actual?` marks continuous compounding.  The
`except OverflowError` handler cannot fire in the real-valued model. -/
def compound_interest (principal rate time : ℝ) (compound_type : CompoundType)
    (num_times : PyNum) : Except PyExc GR2 :=
  if principal < 0 then .error (.valueError "Principal cannot be negative.")
  else if rate < 0 then .error (.valueError "Interest rate cannot be negative.")
  else if time < 0 then .error (.valueError "Time cannot be negative.")
  else
    let actual? : Except PyExc (Option ℤ) :=
      match compound_type with
      | .str s =>
        if s = "continuously" then .ok none
        else if s = "annually" then .ok (some 1)
        else
          match num_times with
          | .int m =>
            if m ≤ 0 then
              .error (.valueError "Number of times compounded must be a positive integer.")
            else .ok (some m)
          | .float _ =>
            .error (.valueError "Number of times compounded must be a positive integer.")
      | .int m =>
        if m ≤ 0 then .error (.valueError "Number of times compounded must be positive.")
        else .ok (some m)
    match actual? with
    | .error e => .error e
    | .ok none =>
      if rate = 0 then .ok (mkGR2 principal principal)
      else if rate * time > 700 then .ok .overflow
      else .ok (mkGR2 principal (principal * Real.exp (rate * time)))
    | .ok (some m) =>
      let base := 1 + rate / (m : ℝ)
      let exponent := (m : ℝ) * time
      if exponent * Real.log (if base > 0 then base else 1) > 700 then .ok .overflow
      else .ok (mkGR2 principal (principal * base ^ exponent))

/-! ## Characterization of the amortization loop -/

/-- Unfolding of `amortLoop` at positive fuel. -/
theorem amortLoop_succ (i reg e cap : ℝ) (fuel : ℕ) (s : LoopState) :
    amortLoop i reg e cap (fuel + 1) s =
      if s.balance > 0.01 ∧ (s.paymentNum : ℝ) < cap then
        let s' := amortStep i s
        if s'.balance ≤ 0.01 then s'
        else
          amortLoop i reg e cap fuel { s' with totalPayment := reg + e }
      else s := rfl

/-- Unfolding of `amortLoop` at zero fuel. -/
theorem amortLoop_zero (i reg e cap : ℝ) (s : LoopState) :
    amortLoop i reg e cap 0 s = s := rfl

/-- `amortStep` when the principal portion exceeds the balance (the
final-payment clamp of lines 55-57 fires): the balance is driven to
exactly 0 and the recorded payment shrinks to `balance + interest`. -/
theorem amortStep_clamped (i : ℝ) (s : LoopState)
    (h : s.totalPayment - s.balance * i > s.balance) :
    amortStep i s =
      { balance := 0
        paymentNum := s.paymentNum + 1
        totalInterest := s.totalInterest + s.balance * i
        schedule := s.schedule ++
          [{ paymentNum := s.paymentNum + 1
             startingBalance := s.balance
             payment := s.balance + s.balance * i
             principalPaid := s.balance
             interestPaid := s.balance * i
             endingBalance := 0 }]
        totalPayment := s.balance + s.balance * i } := by
  simp [amortStep, h]

/-- `amortStep` when the clamp does not fire: the full
`total_payment` is recorded and the balance drops by the principal
portion.  The negative-balance fix of lines 63-65 cannot fire because
the new balance is nonnegative. -/
theorem amortStep_not_clamped (i : ℝ) (s : LoopState)
    (h : ¬ s.totalPayment - s.balance * i > s.balance) :
    amortStep i s =
      { balance := s.balance - (s.totalPayment - s.balance * i)
        paymentNum := s.paymentNum + 1
        totalInterest := s.totalInterest + s.balance * i
        schedule := s.schedule ++
          [{ paymentNum := s.paymentNum + 1
             startingBalance := s.balance
             payment := s.totalPayment
             principalPaid := s.totalPayment - s.balance * i
             interestPaid := s.balance * i
             endingBalance := s.balance - (s.totalPayment - s.balance * i) }]
        totalPayment := s.totalPayment } := by
  have h' : ¬ s.balance - (s.totalPayment - s.balance * i) < 0 := by
    rw [sub_neg]; exact fun hc => h hc
  simp [amortStep, h, h']

/-- Bookkeeping invariant of the amortization loop, relative to the
original principal `P`.  It holds for the initial state and is
preserved by every iteration, with no assumption on the rate or the
payment: the appended ledger always chains exactly. -/
structure InvU (P : ℝ) (s : LoopState) : Prop where
  bal_nonneg : 0 ≤ s.balance
  len : s.schedule.length = s.paymentNum
  ledger : sumPrincipal s.schedule + s.balance = P
  empty_bal : s.schedule = [] → s.balance = P
  last_end : ∀ r ∈ s.schedule.getLast?, r.endingBalance = s.balance
  head_start : ∀ r ∈ s.schedule.head?, r.startingBalance = P
  chain : List.Chain' (fun a b => b.startingBalance = a.endingBalance) s.schedule
  pay_eq : ∀ r ∈ s.schedule, r.payment = r.principalPaid + r.interestPaid
  start_eq : ∀ r ∈ s.schedule, r.startingBalance = r.endingBalance + r.principalPaid
  eps : ∀ k r, k + 1 < s.schedule.length → s.schedule[k]? = some r →
    0.01 < r.endingBalance

/-- A single `amortStep` from a state with balance above the epsilon
preserves `InvU`. -/
theorem InvU_step (P i : ℝ) (s : LoopState) (h : InvU P s)
    (hb : 0.01 < s.balance) : InvU P (amortStep i s) := by
  have hnn : (0 : ℝ) ≤ s.balance := h.bal_nonneg
  -- facts shared by both cases: the appended row and the new balance
  have key : ∀ row : Row, ∀ b' : ℝ,
      row.startingBalance = s.balance → row.endingBalance = b' → 0 ≤ b' →
      row.payment = row.principalPaid + row.interestPaid →
      row.startingBalance = row.endingBalance + row.principalPaid →
      ∀ pn' ti' tp',
      InvU P { balance := b', paymentNum := pn', totalInterest := ti',
               schedule := s.schedule ++ [row], totalPayment := tp' }
        ∨ pn' ≠ s.paymentNum + 1 := by
    intro row b' hrs hre hb' hpay hse pn' ti' tp'
    by_cases hpn : pn' = s.paymentNum + 1
    · left
      subst hpn
      refine ⟨hb', ?_, ?_, ?_, ?_, ?_, ?_, ?_, ?_, ?_⟩
      · simp [h.len]
      · have : sumPrincipal (s.schedule ++ [row]) =
            sumPrincipal s.schedule + row.principalPaid := by
          simp [sumPrincipal]
        simp only [this]
        have hP := h.ledger
        have : s.balance = row.endingBalance + row.principalPaid := by
          rw [← hrs, hse]
        linarith [hP, this.symm, hre]
      · intro hcon; simp at hcon
      · intro r hr
        rw [List.getLast?_concat] at hr
        simp at hr
        rw [← hr, hre]
      · intro r hr
        rcases hsch : s.schedule with _ | ⟨a, l⟩
        · simp [hsch] at hr
          rw [← hr, hrs]
          exact h.empty_bal hsch
        · rw [hsch] at hr
          simp at hr
          rw [← hr]
          have := h.head_start a
          simp [hsch] at this
          exact this
      · rw [List.chain'_append]
        refine ⟨h.chain, List.chain'_singleton _, ?_⟩
        intro x hx y hy
        simp at hy
        subst hy
        rw [hrs]
        exact (h.last_end x hx).symm
      · intro r hr
        simp at hr
        rcases hr with hr | hr
        · exact h.pay_eq r hr
        · rw [hr]; exact hpay
      · intro r hr
        simp at hr
        rcases hr with hr | hr
        · exact h.start_eq r hr
        · rw [hr]; exact hse
      · intro k r hk hkr
        simp at hk
        rw [h.len] at hk
        by_cases hkl : k < s.schedule.length
        · rw [List.getElem?_append_left hkl] at hkr
          by_cases hk1 : k + 1 < s.schedule.length
          · exact h.eps k r hk1 hkr
          · -- k is the index of the old last row: its ending is the balance
            have hkeq : k = s.schedule.length - 1 := by omega
            have hne : s.schedule ≠ [] := by
              intro hcon; rw [hcon] at hkl; simp at hkl
            have : s.schedule.getLast? = some r := by
              rw [List.getLast?_eq_getElem?]
              rw [← hkeq]
              exact hkr
            have := h.last_end r this
            rw [this]
            exact hb
        · -- impossible: k + 1 < length + 1 and ¬ k < length
          rw [h.len] at hkl
          omega
    · right; exact hpn
  by_cases hc : s.totalPayment - s.balance * i > s.balance
  · rw [amortStep_clamped i s hc]
    have := key
      { paymentNum := s.paymentNum + 1
        startingBalance := s.balance
        payment := s.balance + s.balance * i
        principalPaid := s.balance
        interestPaid := s.balance * i
        endingBalance := 0 }
      0 rfl rfl le_rfl rfl (by simp) (s.paymentNum + 1)
      (s.totalInterest + s.balance * i) (s.balance + s.balance * i)
    rcases this with hgood | hbad
    · exact hgood
    · exact absurd rfl hbad
  · rw [amortStep_not_clamped i s hc]
    have hge : 0 ≤ s.balance - (s.totalPayment - s.balance * i) := by
      rw [not_lt] at hc
      linarith
    have := key
      { paymentNum := s.paymentNum + 1
        startingBalance := s.balance
        payment := s.totalPayment
        principalPaid := s.totalPayment - s.balance * i
        interestPaid := s.balance * i
        endingBalance := s.balance - (s.totalPayment - s.balance * i) }
      (s.balance - (s.totalPayment - s.balance * i)) rfl rfl hge
      (by simp) (by simp) (s.paymentNum + 1)
      (s.totalInterest + s.balance * i) s.totalPayment
    rcases this with hgood | hbad
    · exact hgood
    · exact absurd rfl hbad

/-- `InvU` is preserved by the whole loop, for any fuel. -/
theorem amortLoop_invU (P i reg e cap : ℝ) :
    ∀ (fuel : ℕ) (s : LoopState), InvU P s →
      InvU P (amortLoop i reg e cap fuel s) := by
  intro fuel
  induction fuel with
  | zero => intro s hs; rw [amortLoop_zero]; exact hs
  | succ n ih =>
    intro s hs
    rw [amortLoop_succ]
    by_cases hcond : s.balance > 0.01 ∧ (s.paymentNum : ℝ) < cap
    · rw [if_pos hcond]
      have hstep := InvU_step P i s hs hcond.1
      by_cases hbrk : (amortStep i s).balance ≤ 0.01
      · simp only [hbrk, if_pos]
        exact hstep
      · simp only [hbrk, if_neg, if_false]
        apply ih
        exact ⟨hstep.bal_nonneg, hstep.len, hstep.ledger, hstep.empty_bal,
          hstep.last_end, hstep.head_start, hstep.chain, hstep.pay_eq,
          hstep.start_eq, hstep.eps⟩
    · rw [if_neg hcond]; exact hs

/-- The loop never pushes `payment_num` past `⌈cap⌉₊`: iteration `k+1`
only starts while `k < cap`. -/
theorem amortLoop_pn (i reg e cap : ℝ) :
    ∀ (fuel : ℕ) (s : LoopState), s.paymentNum ≤ ⌈cap⌉₊ →
      (amortLoop i reg e cap fuel s).paymentNum ≤ ⌈cap⌉₊ := by
  intro fuel
  induction fuel with
  | zero => intro s hs; rw [amortLoop_zero]; exact hs
  | succ n ih =>
    intro s hs
    rw [amortLoop_succ]
    by_cases hcond : s.balance > 0.01 ∧ (s.paymentNum : ℝ) < cap
    · rw [if_pos hcond]
      have hlt : s.paymentNum < ⌈cap⌉₊ := Nat.lt_ceil.mpr hcond.2
      have hstep_pn : (amortStep i s).paymentNum = s.paymentNum + 1 := by
        by_cases hc : s.totalPayment - s.balance * i > s.balance
        · rw [amortStep_clamped i s hc]
        · rw [amortStep_not_clamped i s hc]
      by_cases hbrk : (amortStep i s).balance ≤ 0.01
      · simp only [hbrk, if_pos]
        omega
      · simp only [hbrk, if_neg, if_false]
        apply ih
        simp only [hstep_pn]
        omega
    · rw [if_neg hcond]; exact hs

/-- The initial loop state of `calculate_amortization` satisfies `InvU`. -/
theorem InvU_init (P tp : ℝ) (hP : 0 ≤ P) :
    InvU P { balance := P, paymentNum := 0, totalInterest := 0,
             schedule := [], totalPayment := tp } := by
  refine ⟨hP, rfl, ?_, fun _ => rfl, ?_, ?_, ?_, ?_, ?_, ?_⟩
  · simp [sumPrincipal]
  · intro r hr; simp at hr
  · intro r hr; simp at hr
  · simp
  · intro r hr; simp at hr
  · intro r hr; simp at hr
  · intro k r hk hkr; simp at hk

/-- Monotonicity invariant of the amortization loop.  It needs the
rate to be nonnegative and the per-period payment to dominate the
interest on the original principal (which the closed-form payment of
`calculate_loan_payment` always does), and yields positivity of every
principal portion and a strictly decreasing balance. -/
structure InvC (P : ℝ) (s : LoopState) : Prop where
  bal_le : s.balance ≤ P
  rows_pos : ∀ r ∈ s.schedule, 0 < r.principalPaid ∧ 0 ≤ r.interestPaid ∧
    0 < r.payment ∧ r.endingBalance < r.startingBalance

/-- A single step preserves `InvC` when the payment covers the
interest on the original principal. -/
theorem InvC_step (P i pay : ℝ) (s : LoopState)
    (hu : InvU P s) (hc : InvC P s) (htp : s.totalPayment = pay)
    (hi : 0 ≤ i) (hpay : P * i < pay) (hb : 0.01 < s.balance) :
    InvC P (amortStep i s) := by
  have hnn : (0 : ℝ) ≤ s.balance := hu.bal_nonneg
  have hble : s.balance ≤ P := hc.bal_le
  have hint_nonneg : 0 ≤ s.balance * i := mul_nonneg hnn hi
  have hint_le : s.balance * i ≤ P * i := mul_le_mul_of_nonneg_right hble hi
  have hpp0 : 0 < s.totalPayment - s.balance * i := by
    rw [htp]; linarith
  by_cases hcl : s.totalPayment - s.balance * i > s.balance
  · rw [amortStep_clamped i s hcl]
    constructor
    · exact le_trans hnn hble
    · intro r hr
      simp at hr
      rcases hr with hr | hr
      · exact hc.rows_pos r hr
      · rw [hr]
        dsimp only
        refine ⟨by linarith, hint_nonneg, by linarith, by linarith⟩
  · rw [amortStep_not_clamped i s hcl]
    constructor
    · dsimp only
      linarith
    · intro r hr
      simp at hr
      rcases hr with hr | hr
      · exact hc.rows_pos r hr
      · rw [hr]
        dsimp only
        refine ⟨hpp0, hint_nonneg, by rw [htp]; linarith, by linarith⟩

/-- `InvU` together with `InvC` is preserved by the whole loop,
provided the `total_payment` field at entry is the regular-plus-extra
payment and that payment covers the interest on the principal. -/
theorem amortLoop_invC (P i reg e cap : ℝ) (hi : 0 ≤ i)
    (hpay : P * i < reg + e) :
    ∀ (fuel : ℕ) (s : LoopState), InvU P s → InvC P s →
      s.totalPayment = reg + e →
      InvU P (amortLoop i reg e cap fuel s) ∧
        InvC P (amortLoop i reg e cap fuel s) := by
  intro fuel
  induction fuel with
  | zero => intro s hu hc htp; rw [amortLoop_zero]; exact ⟨hu, hc⟩
  | succ n ih =>
    intro s hu hc htp
    rw [amortLoop_succ]
    by_cases hcond : s.balance > 0.01 ∧ (s.paymentNum : ℝ) < cap
    · rw [if_pos hcond]
      have hstepU := InvU_step P i s hu hcond.1
      have hstepC := InvC_step P i (reg + e) s hu hc htp hi hpay hcond.1
      by_cases hbrk : (amortStep i s).balance ≤ 0.01
      · simp only [hbrk, if_pos]
        exact ⟨hstepU, hstepC⟩
      · simp only [hbrk, if_neg, if_false]
        apply ih
        · exact ⟨hstepU.bal_nonneg, hstepU.len, hstepU.ledger,
            hstepU.empty_bal, hstepU.last_end, hstepU.head_start,
            hstepU.chain, hstepU.pay_eq, hstepU.start_eq, hstepU.eps⟩
        · exact ⟨hstepC.bal_le, hstepC.rows_pos⟩
        · rfl
    · rw [if_neg hcond]; exact ⟨hu, hc⟩

/-- `calculate_loan_payment` on the zero-rate branch. -/
theorem calculate_loan_payment_rate_zero (P y p : ℝ) (hP : ¬ P ≤ 0)
    (hy : ¬ y ≤ 0) (hp : ¬ p ≤ 0) :
    calculate_loan_payment P 0 y p = .ok (P / (y * p)) := by
  unfold calculate_loan_payment
  rw [if_neg hP, if_neg (by norm_num : ¬ (0:ℝ) < 0), if_neg hy, if_neg hp,
    if_pos rfl]

/-- `calculate_loan_payment` on the positive-rate branch, with
`npf_pmt` expanded. -/
theorem calculate_loan_payment_formula (P r y p : ℝ) (hP : ¬ P ≤ 0)
    (hr0 : ¬ r < 0) (hy : ¬ y ≤ 0) (hp : ¬ p ≤ 0) (hr : ¬ r = 0) :
    calculate_loan_payment P r y p =
      .ok (P * ((1 + r / p) ^ (y * p)) * (r / p) /
        ((1 + r / p) ^ (y * p) - 1)) := by
  unfold calculate_loan_payment npf_pmt
  rw [if_neg hP, if_neg hr0, if_neg hy, if_neg hp, if_neg hr]
  have hi : ¬ r / p = 0 := by
    have hp' : 0 < p := lt_of_not_le hp
    have hrpos : 0 < r := lt_of_le_of_ne (not_lt.mp hr0) (Ne.symm hr)
    positivity
  simp only [if_neg hi]
  congr 1
  field_simp
  ring

/-- The closed-form payment strictly dominates the per-period interest
on the whole principal, and is positive. -/
theorem regular_payment_bound (P r y p rp : ℝ) (hP : 0 < P) (hr : 0 ≤ r)
    (hy : 0 < y) (hp : 0 < p)
    (h : calculate_loan_payment P r y p = .ok rp) :
    P * (r / p) < rp ∧ 0 < rp := by
  by_cases hr0 : r = 0
  · subst hr0
    rw [calculate_loan_payment_rate_zero P y p (not_le.mpr hP)
      (not_le.mpr hy) (not_le.mpr hp)] at h
    have : rp = P / (y * p) := by
      injection h with h'; exact h'.symm
    rw [this]
    constructor
    · simp
      positivity
    · positivity
  · have hrpos : 0 < r := lt_of_le_of_ne hr (Ne.symm hr0)
    rw [calculate_loan_payment_formula P r y p (not_le.mpr hP)
      (not_lt.mpr hr) (not_le.mpr hy) (not_le.mpr hp) hr0] at h
    have hi : 0 < r / p := by positivity
    have hT : 1 < (1 + r / p) ^ (y * p) := by
      rw [Real.one_lt_rpow_iff_of_pos (by linarith)]
      left
      exact ⟨by linarith, by positivity⟩
    have : rp = P * ((1 + r / p) ^ (y * p)) * (r / p) /
        ((1 + r / p) ^ (y * p) - 1) := by
      injection h with h'; exact h'.symm
    rw [this]
    set T := (1 + r / p) ^ (y * p) with hTdef
    have hT1 : 0 < T - 1 := by linarith
    constructor
    · rw [lt_div_iff₀ hT1]
      have hPi : 0 < P * (r / p) := by positivity
      nlinarith
    · positivity

/-- Unpacking a successful `calculate_amortization` run with positive
principal into its loop output. -/
theorem calculate_amortization_ok (P r y p e : ℝ) (res : AmortResult)
    (hres : calculate_amortization P r y p e = .ok res) (hP : ¬ P ≤ 0) :
    ∃ rp : ℝ, calculate_loan_payment P r y p = .ok rp ∧
      ∃ out : LoopState,
        out = amortLoop (r / p)
            (if rp = 0 ∧ P > 0 then P / (y * p) else rp) e (y * p * 2)
            (⌈y * p * 2⌉₊ + 1)
            { balance := P, paymentNum := 0, totalInterest := 0,
              schedule := [],
              totalPayment :=
                (if rp = 0 ∧ P > 0 then P / (y * p) else rp) + e } ∧
          out.schedule ≠ [] ∧
          res = ⟨out.schedule,
            [(if rp = 0 ∧ P > 0 then P / (y * p) else rp),
              sumPayments out.schedule, out.totalInterest,
              (out.paymentNum : ℝ)]⟩ := by
  unfold calculate_amortization at hres
  rw [if_neg hP] at hres
  cases hm : calculate_loan_payment P r y p with
  | error e' =>
    rw [hm] at hres
    simp at hres
  | ok rp =>
    rw [hm] at hres
    refine ⟨rp, rfl, ?_⟩
    simp only at hres
    by_cases hemp : (amortLoop (r / p)
        (if rp = 0 ∧ P > 0 then P / (y * p) else rp) e (y * p * 2)
        (⌈y * p * 2⌉₊ + 1)
        { balance := P, paymentNum := 0, totalInterest := 0,
          schedule := [],
          totalPayment :=
            (if rp = 0 ∧ P > 0 then P / (y * p) else rp) + e }).schedule.isEmpty
    · rw [if_pos hemp] at hres
      simp at hres
    · rw [if_neg hemp] at hres
      refine ⟨_, rfl, ?_, ?_⟩
      · intro hcon
        rw [List.isEmpty_iff] at hemp
        exact hemp hcon
      · injection hres with h'
        exact h'.symm

/-- With enough fuel the loop really terminates through its own
condition: at exit either the balance is at or below the epsilon or
the payment counter has reached the cap. -/
theorem amortLoop_finished (i reg e cap : ℝ) :
    ∀ (fuel : ℕ) (s : LoopState), cap < (s.paymentNum : ℝ) + (fuel : ℝ) →
      (amortLoop i reg e cap fuel s).balance ≤ 0.01 ∨
        cap ≤ ((amortLoop i reg e cap fuel s).paymentNum : ℝ) := by
  intro fuel
  induction fuel with
  | zero =>
    intro s hs
    rw [amortLoop_zero]
    right
    simpa using hs.le
  | succ n ih =>
    intro s hs
    rw [amortLoop_succ]
    by_cases hcond : s.balance > 0.01 ∧ (s.paymentNum : ℝ) < cap
    · rw [if_pos hcond]
      have hstep_pn : (amortStep i s).paymentNum = s.paymentNum + 1 := by
        by_cases hc : s.totalPayment - s.balance * i > s.balance
        · rw [amortStep_clamped i s hc]
        · rw [amortStep_not_clamped i s hc]
      by_cases hbrk : (amortStep i s).balance ≤ 0.01
      · simp only [if_pos hbrk]
        left
        exact hbrk
      · simp only [hbrk, if_neg, if_false]
        apply ih
        simp only [hstep_pn]
        push_cast
        push_cast at hs
        linarith
    · rw [if_neg hcond]
      rcases not_and_or.mp hcond with h | h
      · left; exact le_of_not_lt h
      · right; exact le_of_not_lt h

/-- Every row of a state satisfying `InvU` has a nonnegative ending
balance: all rows but the last sit above the epsilon, and the last
one carries the current balance. -/
theorem rows_ending_nonneg (P : ℝ) (s : LoopState) (hu : InvU P s) :
    ∀ row ∈ s.schedule, 0 ≤ row.endingBalance := by
  intro row hrow
  obtain ⟨k, hk, hget⟩ := List.mem_iff_getElem.mp hrow
  by_cases hk1 : k + 1 < s.schedule.length
  · have := hu.eps k row hk1 (by rw [List.getElem?_eq_getElem hk, hget])
    linarith
  · have hkeq : k = s.schedule.length - 1 := by omega
    have hlast : s.schedule.getLast? = some row := by
      rw [List.getLast?_eq_getElem?, ← hkeq, List.getElem?_eq_getElem hk, hget]
    have := hu.last_end row hlast
    rw [this]
    exact hu.bal_nonneg

/-! ## Concrete runs of the loan calculator -/

/-- Zero-rate payment on a one-year annual loan of 100. -/
theorem clp_run_std : calculate_loan_payment 100 0 1 1 = .ok 100 := by
  rw [calculate_loan_payment_rate_zero 100 1 1 (by norm_num) (by norm_num)
    (by norm_num)]
  norm_num

/-- A loan of 100 at rate 0 over one annual payment: one payment of
100 clears it exactly. -/
theorem amort_run_std : calculate_amortization 100 0 1 1 0 =
    .ok ⟨[⟨1, 100, 100, 100, 0, 0⟩], [100, 100, 0, 1]⟩ := by
  unfold calculate_amortization
  rw [if_neg (by norm_num : ¬ (100:ℝ) ≤ 0), clp_run_std]
  simp only
  rw [if_neg (by norm_num : ¬ ((100:ℝ) = 0 ∧ (100:ℝ) > 0))]
  rw [amortLoop_succ]
  rw [if_pos (by norm_num : (100:ℝ) > 0.01 ∧ ((0:ℕ):ℝ) < 1 * 1 * 2)]
  rw [amortStep_not_clamped _ _ (by norm_num)]
  norm_num [sumPayments]

/-- Zero-rate payment on a two-year annual loan of 100. -/
theorem clp_run_half : calculate_loan_payment 100 0 2 1 = .ok 50 := by
  rw [calculate_loan_payment_rate_zero 100 2 1 (by norm_num) (by norm_num)
    (by norm_num)]
  norm_num

/-- A loan of 100 at rate 0, two scheduled annual payments of 50, with
an extra payment of 49.995: the single payment of 99.995 leaves a
balance of 0.005, which is at or below the epsilon, so the loop stops
with a final ending balance of 0.005, not 0. -/
theorem amort_run_eps : calculate_amortization 100 0 2 1 49.995 =
    .ok ⟨[⟨1, 100, 99.995, 99.995, 0, 0.005⟩], [50, 99.995, 0, 1]⟩ := by
  unfold calculate_amortization
  rw [if_neg (by norm_num : ¬ (100:ℝ) ≤ 0), clp_run_half]
  simp only
  rw [if_neg (by norm_num : ¬ ((50:ℝ) = 0 ∧ (100:ℝ) > 0))]
  rw [amortLoop_succ]
  rw [if_pos (by norm_num : (100:ℝ) > 0.01 ∧ ((0:ℕ):ℝ) < 2 * 1 * 2)]
  rw [amortStep_not_clamped _ _ (by norm_num)]
  norm_num [sumPayments]

/-- Same loan with an extra payment of 49.992: the final ending
balance is 0.008. -/
theorem amort_run_eps8 : calculate_amortization 100 0 2 1 49.992 =
    .ok ⟨[⟨1, 100, 99.992, 99.992, 0, 0.008⟩], [50, 99.992, 0, 1]⟩ := by
  unfold calculate_amortization
  rw [if_neg (by norm_num : ¬ (100:ℝ) ≤ 0), clp_run_half]
  simp only
  rw [if_neg (by norm_num : ¬ ((50:ℝ) = 0 ∧ (100:ℝ) > 0))]
  rw [amortLoop_succ]
  rw [if_pos (by norm_num : (100:ℝ) > 0.01 ∧ ((0:ℕ):ℝ) < 2 * 1 * 2)]
  rw [amortStep_not_clamped _ _ (by norm_num)]
  norm_num [sumPayments]

/-- Zero-rate payment on a 0.2-year annual loan of 100: the
closed-form straight-line payment is 500. -/
theorem clp_run_frac : calculate_loan_payment 100 0 0.2 1 = .ok 500 := by
  rw [calculate_loan_payment_rate_zero 100 0.2 1 (by norm_num) (by norm_num)
    (by norm_num)]
  norm_num

/-- A loan of 100 at rate 0 with a fractional 0.2-year term: the
clamped single payment clears the loan, so the schedule has one row
although `2 * years * payments_per_year = 0.4`. -/
theorem amort_run_frac : calculate_amortization 100 0 0.2 1 0 =
    .ok ⟨[⟨1, 100, 100, 100, 0, 0⟩], [500, 100, 0, 1]⟩ := by
  unfold calculate_amortization
  rw [if_neg (by norm_num : ¬ (100:ℝ) ≤ 0), clp_run_frac]
  simp only
  rw [if_neg (by norm_num : ¬ ((500:ℝ) = 0 ∧ (100:ℝ) > 0))]
  rw [amortLoop_succ]
  rw [if_pos (by norm_num : (100:ℝ) > 0.01 ∧ ((0:ℕ):ℝ) < 0.2 * 1 * 2)]
  rw [amortStep_clamped _ _ (by norm_num)]
  norm_num [sumPayments]

/-- Zero-rate payment on a one-year annual loan of 50. -/
theorem clp_run_small : calculate_loan_payment 50 0 1 1 = .ok 50 := by
  rw [calculate_loan_payment_rate_zero 50 1 1 (by norm_num) (by norm_num)
    (by norm_num)]
  norm_num

/-- A loan of 50 at rate 0 over one annual payment. -/
theorem amort_run_small : calculate_amortization 50 0 1 1 0 =
    .ok ⟨[⟨1, 50, 50, 50, 0, 0⟩], [50, 50, 0, 1]⟩ := by
  unfold calculate_amortization
  rw [if_neg (by norm_num : ¬ (50:ℝ) ≤ 0), clp_run_small]
  simp only
  rw [if_neg (by norm_num : ¬ ((50:ℝ) = 0 ∧ (50:ℝ) > 0))]
  rw [amortLoop_succ]
  rw [if_pos (by norm_num : (50:ℝ) > 0.01 ∧ ((0:ℕ):ℝ) < 1 * 1 * 2)]
  rw [amortStep_not_clamped _ _ (by norm_num)]
  norm_num [sumPayments]

/-- The zero-principal early return of `calculate_amortization`: an
empty dataframe followed by five zeros (a six-element tuple). -/
theorem amort_run_zero : calculate_amortization 0 0.065 5 12 0 =
    .ok ⟨[], [0, 0, 0, 0, 0]⟩ := by
  unfold calculate_amortization
  rw [if_pos (by norm_num : (0:ℝ) ≤ 0)]

/-! ## Claim theorems: amortization schedule -/

/-- C9: in every schedule produced by `calculate_amortization`, each
row's payment equals its principal portion plus its interest portion,
the first row's starting balance equals the original principal, and
each subsequent row's starting balance equals the previous row's
ending balance. -/
theorem C9_schedule_chains (P r y p e : ℝ) (res : AmortResult)
    (hres : calculate_amortization P r y p e = .ok res) :
    (∀ row ∈ res.df, row.payment = row.principalPaid + row.interestPaid) ∧
    (∀ row ∈ res.df.head?, row.startingBalance = P) ∧
    List.Chain' (fun a b => b.startingBalance = a.endingBalance) res.df := by
  by_cases hP : P ≤ 0
  · unfold calculate_amortization at hres
    rw [if_pos hP] at hres
    injection hres with h'
    rw [← h']
    refine ⟨?_, ?_, ?_⟩
    · intro row hrow; simp at hrow
    · intro row hrow; simp at hrow
    · simp
  · obtain ⟨rp, hrp, out, hout, hne, hres'⟩ :=
      calculate_amortization_ok P r y p e res hres hP
    have hu : InvU P out := by
      rw [hout]
      exact amortLoop_invU P (r / p) _ e (y * p * 2) _ _
        (InvU_init P _ (le_of_lt (not_le.mp hP)))
    have hdf : res.df = out.schedule := by rw [hres']
    rw [hdf]
    exact ⟨hu.pay_eq, hu.head_start, hu.chain⟩

/-- C9 witness: the chain properties instantiated on the concrete run
of a zero-rate loan of 50 and on its single row. -/
theorem C9_schedule_chains_witness :
    (Row.mk 1 50 50 50 0 0).payment =
      (Row.mk 1 50 50 50 0 0).principalPaid +
        (Row.mk 1 50 50 50 0 0).interestPaid ∧
    (Row.mk 1 50 50 50 0 0).startingBalance = 50 ∧
    List.Chain' (fun a b => b.startingBalance = a.endingBalance)
      [Row.mk 1 50 50 50 0 0] := by
  have h := C9_schedule_chains 50 0 1 1 0 _ amort_run_small
  exact ⟨h.1 _ (by simp), h.2.1 _ (by simp), h.2.2⟩

/-- C1 counterexample: on the valid loan input
`(principal 100, rate 0, 2 years, 1 payment/year, extra 49.995)` the
single payment leaves a balance of 0.005, at or below the loop's
epsilon, so the final row's ending balance is 0.005 and not exactly 0
as the claim states. -/
theorem C1_counterexample :
    calculate_amortization 100 0 2 1 49.995 =
      .ok ⟨[⟨1, 100, 99.995, 99.995, 0, 0.005⟩], [50, 99.995, 0, 1]⟩ ∧
    ¬ ((0.005 : ℝ) = 0) :=
  ⟨amort_run_eps, by norm_num⟩

/-- C1 amended: for every successful run, the sum of the principal
portions equals the principal minus the final row's ending balance
exactly; the final ending balance is nonnegative, and whenever it is
at or below the 0.01 epsilon (every run in which the safety cap was
not hit) the principal-portion sum is within 0.01 of the original
principal.  The final ending balance need not be exactly 0. -/
theorem C1_amended_principal_sum (P r y p e : ℝ) (res : AmortResult)
    (hres : calculate_amortization P r y p e = .ok res) :
    ∀ last ∈ res.df.getLast?,
      sumPrincipal res.df = P - last.endingBalance ∧
      0 ≤ last.endingBalance ∧
      (last.endingBalance ≤ 0.01 → |sumPrincipal res.df - P| ≤ 0.01) := by
  by_cases hP : P ≤ 0
  · unfold calculate_amortization at hres
    rw [if_pos hP] at hres
    injection hres with h'
    rw [← h']
    intro last hlast
    simp at hlast
  · obtain ⟨rp, hrp, out, hout, hne, hres'⟩ :=
      calculate_amortization_ok P r y p e res hres hP
    have hu : InvU P out := by
      rw [hout]
      exact amortLoop_invU P (r / p) _ e (y * p * 2) _ _
        (InvU_init P _ (le_of_lt (not_le.mp hP)))
    have hdf : res.df = out.schedule := by rw [hres']
    rw [hdf]
    intro last hlast
    have hend := hu.last_end last hlast
    have hledger := hu.ledger
    have hnn := hu.bal_nonneg
    refine ⟨by rw [hend]; linarith, by rw [hend]; exact hnn, ?_⟩
    intro heps
    rw [hend] at heps
    rw [abs_le]
    constructor <;> linarith

/-- C1 amended witness: the instantiation on the concrete run of a
zero-rate loan of 100 paid off exactly in one payment. -/
theorem C1_amended_principal_sum_witness :
    sumPrincipal [Row.mk 1 100 100 100 0 0] = 100 - 0 ∧
    (0:ℝ) ≤ 0 ∧
    |sumPrincipal [Row.mk 1 100 100 100 0 0] - 100| ≤ 0.01 := by
  have h := C1_amended_principal_sum 100 0 1 1 0 _ amort_run_std
    (Row.mk 1 100 100 100 0 0) (by simp)
  exact ⟨h.1, h.2.1, h.2.2 (by norm_num)⟩

/-- C7 counterexample: with a fractional term of 0.2 years and one
payment per year, `2 * years * payments_per_year = 0.4`, yet the loop
runs one iteration and `paymentCount = 1 > 0.4`, so the stated bound
`paymentCount ≤ 2 * years * paymentsPerYear` fails. -/
theorem C7_counterexample :
    calculate_amortization 100 0 0.2 1 0 =
      .ok ⟨[⟨1, 100, 100, 100, 0, 0⟩], [500, 100, 0, 1]⟩ ∧
    ¬ ((1 : ℝ) ≤ 2 * 0.2 * 1) :=
  ⟨amort_run_frac, by norm_num⟩

/-- C7 amended: the loop always terminates; the number of rows (which
equals `payment_num`) is bounded by `⌈2 * years * paymentsPerYear⌉`
rather than by `2 * years * paymentsPerYear` itself, and the loop
stops as soon as the balance reaches the epsilon: every row except
the last has an ending balance above 0.01. -/
theorem C7_amended_loop_bound (P r y p e : ℝ) (res : AmortResult)
    (hres : calculate_amortization P r y p e = .ok res) :
    res.df.length ≤ ⌈y * p * 2⌉₊ ∧
    ∀ (k : ℕ) (row : Row), k + 1 < res.df.length → res.df[k]? = some row →
      0.01 < row.endingBalance := by
  by_cases hP : P ≤ 0
  · unfold calculate_amortization at hres
    rw [if_pos hP] at hres
    injection hres with h'
    rw [← h']
    refine ⟨by simp, ?_⟩
    intro k row hk hkr
    simp at hk
  · obtain ⟨rp, hrp, out, hout, hne, hres'⟩ :=
      calculate_amortization_ok P r y p e res hres hP
    have hu : InvU P out := by
      rw [hout]
      exact amortLoop_invU P (r / p) _ e (y * p * 2) _ _
        (InvU_init P _ (le_of_lt (not_le.mp hP)))
    have hpn : out.paymentNum ≤ ⌈y * p * 2⌉₊ := by
      rw [hout]
      exact amortLoop_pn (r / p) _ e (y * p * 2) _ _ (Nat.zero_le _)
    have hdf : res.df = out.schedule := by rw [hres']
    rw [hdf]
    constructor
    · rw [hu.len]; exact hpn
    · exact hu.eps

/-- C7 amended witness: the instantiation on the concrete zero-rate
run of a loan of 100 over one year. -/
theorem C7_amended_loop_bound_witness :
    (AmortResult.mk [Row.mk 1 100 100 100 0 0] [100, 100, 0, 1]).df.length ≤
      ⌈(1 : ℝ) * 1 * 2⌉₊ :=
  (C7_amended_loop_bound 100 0 1 1 0 _ amort_run_std).1

/-- C8 counterexample: on the valid input
`(100, rate 0, 2 years, 1 payment/year, extra 49.992)` the final (and
only) row has ending balance 0.008, which is at or below the epsilon
but not exactly zero, contradicting the claim that the last row
reaches exactly zero. -/
theorem C8_counterexample :
    calculate_amortization 100 0 2 1 49.992 =
      .ok ⟨[⟨1, 100, 99.992, 99.992, 0, 0.008⟩], [50, 99.992, 0, 1]⟩ ∧
    ¬ ((0.008 : ℝ) = 0) :=
  ⟨amort_run_eps8, by norm_num⟩

/-- C8 amended: on valid loan inputs every row's fields are
nonnegative (payment and principal portion strictly positive), the
ending balance strictly decreases from each row to the next, and the
final row's ending balance is nonnegative and at or below the 0.01
epsilon unless the safety cap was hit — it reaches exactly 0 only
when the final-payment clamp fires, and may lie anywhere in
`[0, 0.01]`. -/
theorem C8_amended_row_monotone (P r y p e : ℝ) (hP : 0 < P) (hr : 0 ≤ r)
    (hy : 0 < y) (hp : 0 < p) (he : 0 ≤ e) (res : AmortResult)
    (hres : calculate_amortization P r y p e = .ok res) :
    (∀ row ∈ res.df, 0 ≤ row.startingBalance ∧ 0 < row.payment ∧
      0 < row.principalPaid ∧ 0 ≤ row.interestPaid ∧
      0 ≤ row.endingBalance) ∧
    List.Chain' (fun a b => b.endingBalance < a.endingBalance) res.df ∧
    (∀ last ∈ res.df.getLast?,
      0 ≤ last.endingBalance ∧
      (last.endingBalance ≤ 0.01 ∨ y * p * 2 ≤ (res.df.length : ℝ))) := by
  obtain ⟨rp, hrp, out, hout, hne, hres'⟩ :=
    calculate_amortization_ok P r y p e res hres (not_le.mpr hP)
  obtain ⟨hrp_gt, hrp_pos⟩ := regular_payment_bound P r y p rp hP hr hy hp hrp
  have hreg : (if rp = 0 ∧ P > 0 then P / (y * p) else rp) = rp := by
    rw [if_neg]
    intro hcon
    exact absurd hcon.1 (ne_of_gt hrp_pos)
  rw [hreg] at hout hres'
  have hi : 0 ≤ r / p := by positivity
  have hpay : P * (r / p) < rp + e := by linarith
  have hinit : InvU P
      { balance := P, paymentNum := 0, totalInterest := 0,
        schedule := [], totalPayment := rp + e } :=
    InvU_init P _ hP.le
  have hinitC : InvC P
      { balance := P, paymentNum := 0, totalInterest := 0,
        schedule := [], totalPayment := rp + e } := by
    constructor
    · exact le_refl P
    · intro row hrow; simp at hrow
  obtain ⟨hu, hc⟩ : InvU P out ∧ InvC P out := by
    rw [hout]
    exact amortLoop_invC P (r / p) rp e (y * p * 2) hi hpay _ _ hinit hinitC rfl
  have hfin : out.balance ≤ 0.01 ∨ y * p * 2 ≤ (out.paymentNum : ℝ) := by
    rw [hout]
    apply amortLoop_finished
    have := Nat.le_ceil (y * p * 2)
    push_cast
    simp only [Nat.cast_zero, zero_add]
    push_cast at this
    linarith
  have hdf : res.df = out.schedule := by rw [hres']
  have hnonneg := rows_ending_nonneg P out hu
  rw [hdf]
  refine ⟨?_, ?_, ?_⟩
  · intro row hrow
    obtain ⟨hpp, hint, hpaypos, hlt⟩ := hc.rows_pos row hrow
    have hend := hnonneg row hrow
    exact ⟨le_of_lt (lt_of_le_of_lt hend hlt), hpaypos, hpp, hint, hend⟩
  · rw [List.chain'_iff_get]
    intro i hi'
    have hchain := List.chain'_iff_get.mp hu.chain i hi'
    have hmem : out.schedule.get ⟨i + 1, by omega⟩ ∈ out.schedule := by
      apply List.get_mem
    obtain ⟨_, _, _, hlt⟩ := hc.rows_pos _ hmem
    rw [← hchain]
    exact hlt
  · intro last hlast
    have hend := hu.last_end last hlast
    rw [hend, hu.len]
    exact ⟨hu.bal_nonneg, hfin⟩

/-- C8 amended witness: the instantiation on the concrete zero-rate
run of a loan of 100 over one year and on its single row. -/
theorem C8_amended_row_monotone_witness :
    (0 ≤ (Row.mk 1 100 100 100 0 0).startingBalance ∧
      0 < (Row.mk 1 100 100 100 0 0).payment ∧
      0 < (Row.mk 1 100 100 100 0 0).principalPaid ∧
      0 ≤ (Row.mk 1 100 100 100 0 0).interestPaid ∧
      0 ≤ (Row.mk 1 100 100 100 0 0).endingBalance) ∧
    List.Chain' (fun a b => b.endingBalance < a.endingBalance)
      [Row.mk 1 100 100 100 0 0] ∧
    (0 ≤ (Row.mk 1 100 100 100 0 0).endingBalance ∧
      ((Row.mk 1 100 100 100 0 0).endingBalance ≤ 0.01 ∨
        (1 : ℝ) * 1 * 2 ≤ ((AmortResult.mk [Row.mk 1 100 100 100 0 0]
          [100, 100, 0, 1]).df.length : ℝ))) := by
  have h := C8_amended_row_monotone 100 0 1 1 0 (by norm_num) (by norm_num)
    (by norm_num) (by norm_num) (by norm_num) _ amort_run_std
  exact ⟨h.1 _ (by simp), h.2.1, h.2.2 _ (by simp)⟩

/-! ## Claim theorems: loan payment -/

/-- C2: `calculate_loan_payment` returns 0 for nonpositive principal;
for valid positive-principal inputs it returns the straight-line
payment at zero rate and the closed-form annuity payment
`P * i / (1 - (1+i)^(-n))` otherwise, where `i = annualRate /
paymentsPerYear` and `n = years * paymentsPerYear`. -/
theorem C2_loan_payment_formula (P r y p : ℝ) :
    (P ≤ 0 → calculate_loan_payment P r y p = .ok 0) ∧
    (0 < P → 0 ≤ r → 0 < y → 0 < p →
      (r = 0 → calculate_loan_payment P r y p = .ok (P / (y * p))) ∧
      (r ≠ 0 → calculate_loan_payment P r y p =
        .ok (P * (r / p) / (1 - (1 + r / p) ^ (-(y * p)))))) := by
  constructor
  · intro hP
    unfold calculate_loan_payment
    rw [if_pos hP]
  · intro hP hr hy hp
    constructor
    · intro hr0
      subst hr0
      exact calculate_loan_payment_rate_zero P y p (not_le.mpr hP)
        (not_le.mpr hy) (not_le.mpr hp)
    · intro hr0
      rw [calculate_loan_payment_formula P r y p (not_le.mpr hP)
        (not_lt.mpr hr) (not_le.mpr hy) (not_le.mpr hp) hr0]
      congr 1
      have hrpos : 0 < r := lt_of_le_of_ne hr (Ne.symm hr0)
      have hipos : 0 < r / p := by positivity
      have hbpos : (0:ℝ) < 1 + r / p := by linarith
      have hT : 1 < (1 + r / p) ^ (y * p) := by
        rw [Real.one_lt_rpow_iff_of_pos hbpos]
        left
        exact ⟨by linarith, by positivity⟩
      rw [Real.rpow_neg hbpos.le]
      set T := (1 + r / p) ^ (y * p) with hTdef
      have hT0 : T ≠ 0 := by
        have : (0:ℝ) < T := by linarith
        exact this.ne'
      have hT1 : T - 1 ≠ 0 := by
        have : (0:ℝ) < T - 1 := by linarith
        exact this.ne'
      have hTinv : 1 - T⁻¹ ≠ 0 := by
        have h1 : T⁻¹ < 1 := by
          rw [inv_lt_one_iff₀]
          right
          exact hT
        have : (0:ℝ) < 1 - T⁻¹ := by linarith
        exact this.ne'
      field_simp
      ring

/-- C2 witness: the zero-rate branch on a loan of 100 over two annual
payments. -/
theorem C2_loan_payment_formula_witness :
    calculate_loan_payment 100 0 2 1 = .ok (100 / (2 * 1)) :=
  ((C2_loan_payment_formula 100 0 2 1).2 (by norm_num) (by norm_num)
    (by norm_num) (by norm_num)).1 rfl

/-- C5: for positive principal, a negative rate, nonpositive term or
nonpositive payment frequency raises `ValueError` (InvalidArgument);
a nonpositive principal short-circuits to 0 without failing,
whatever the other arguments. -/
theorem C5_validation_errors (P r y p : ℝ) :
    (0 < P → r < 0 ∨ y ≤ 0 ∨ p ≤ 0 →
      isValueError (calculate_loan_payment P r y p)) ∧
    (P ≤ 0 → calculate_loan_payment P r y p = .ok 0) := by
  constructor
  · intro hP hbad
    unfold calculate_loan_payment
    rw [if_neg (not_le.mpr hP)]
    by_cases hr : r < 0
    · rw [if_pos hr]
      trivial
    · rw [if_neg hr]
      rcases hbad with h | h | h
      · exact absurd h hr
      · rw [if_pos h]
        trivial
      · by_cases hy : y ≤ 0
        · rw [if_pos hy]
          trivial
        · rw [if_neg hy, if_pos h]
          trivial
  · intro hP
    unfold calculate_loan_payment
    rw [if_pos hP]

/-- C5 witness: a negative rate fails on a positive principal, while a
nonpositive principal returns 0 even with the same invalid rate. -/
theorem C5_validation_errors_witness :
    isValueError (calculate_loan_payment 1 (-1) 1 12) ∧
    calculate_loan_payment (-2) (-1) 1 12 = .ok 0 :=
  ⟨(C5_validation_errors 1 (-1) 1 12).1 (by norm_num) (Or.inl (by norm_num)),
   (C5_validation_errors (-2) (-1) 1 12).2 (by norm_num)⟩

/-- C4: the zero-principal early return of `calculate_amortization`
carries an empty schedule and zeroed totals, but as a six-element
tuple (five numbers after the dataframe), while every normal return is
a five-element tuple (four numbers after the dataframe); the in-repo
caller unpacks five values, so the zero-principal call raises at the
call site instead of delivering the same result shape. -/
theorem C4_zero_principal_shape :
    calculate_amortization 0 0.065 5 12 0 = .ok ⟨[], [0, 0, 0, 0, 0]⟩ ∧
    ([(0:ℝ), 0, 0, 0, 0].length = 5) ∧
    calculate_amortization 100 0 1 1 0 =
      .ok ⟨[⟨1, 100, 100, 100, 0, 0⟩], [100, 100, 0, 1]⟩ ∧
    ([(100:ℝ), 100, 0, 1].length = 4) :=
  ⟨amort_run_zero, rfl, amort_run_std, rfl⟩

/-! ## Concrete runs and bounds for the interest calculators -/

/-- `principalFV` with a nonpositive principal is 0. -/
theorem pfv_zero (r t : ℝ) (b : Bool) (n : ℤ) :
    principalFV 0 r t b n = .ok (some 0) := by
  unfold principalFV
  rw [if_neg (by norm_num : ¬ (0:ℝ) > 0)]

/-- The discrete annuity at 300% annual rate over half a year: the
future-value factor is `(4^0.5 - 1)/3 = 1/3`, so contributions of 6
per period grow to only 2 while `total_contributions = 3`. -/
theorem ann_run_half : annuityFV 3 0.5 false 1 6 1 = some (2, 3) := by
  unfold annuityFV
  rw [if_pos (by norm_num : (6:ℝ) > 0 ∧ (1:ℤ) > 0 ∧ (0.5:ℝ) > 0)]
  rw [if_neg (by simp : ¬ (false = true))]
  rw [if_neg (by push_cast; norm_num : ¬ (3:ℝ)/((1:ℤ):ℝ) = 0)]
  have h4 : ((1:ℝ) + 3 / ((1:ℤ):ℝ)) ^ (((1:ℤ):ℝ) * 0.5) = 2 := by
    push_cast
    rw [show ((1:ℝ) + 3 / 1) = (2:ℝ)^(2:ℕ) by norm_num]
    rw [← Real.rpow_natCast 2 2, ← Real.rpow_mul (by norm_num)]
    norm_num
  rw [h4]
  push_cast
  norm_num

/-- A run of the contribution engine violating
`finalAmount ≥ principal + totalContributions`: zero principal, 300%
rate, half a year, annual compounding, contribution 6 once a year. -/
theorem fv_run_half : future_value_with_contributions 0 3 0.5 (.int 1) 6
    (.int 1) = .ok (.val3 2 0 3) := by
  unfold future_value_with_contributions
  simp only
  rw [if_neg (by norm_num : ¬ (0:ℝ) < 0)]
  rw [if_neg (by norm_num : ¬ (3:ℝ) < 0)]
  rw [if_neg (by norm_num : ¬ (0.5:ℝ) < 0)]
  rw [if_neg (by norm_num : ¬ (6:ℝ) < 0)]
  rw [if_neg (by norm_num : ¬ (1:ℤ) < 0)]
  rw [if_neg (by norm_num : ¬ (1:ℤ) ≤ 0)]
  simp only
  rw [show (decide (CompoundType.int 1 = CompoundType.str "continuously")) =
    false from rfl]
  rw [pfv_zero]
  simp only
  rw [ann_run_half]
  simp only
  norm_num

/-- `principalFV` on the overflow scenario `(1e300, 1.0, 1000, 1)`:
the heuristic guard requires `exponent > 10000`, the exponent is only
1000, so the power is evaluated rather than short-circuited. -/
theorem pfv_big : principalFV 1e300 1 1000 false 1 =
    .ok (some (1e300 * 2 ^ (1000:ℝ))) := by
  unfold principalFV
  rw [if_pos (by norm_num : (1e300:ℝ) > 0)]
  rw [if_neg (by simp : ¬ (false = true))]
  rw [if_neg (by norm_num : ¬ (1:ℤ) ≤ 0)]
  rw [if_neg (by norm_num : ¬ (1:ℝ) = 0)]
  simp only
  rw [if_neg (by push_cast; norm_num :
    ¬ ((((1:ℤ):ℝ) * 1000 > 10000) ∧ ((1:ℝ) + 1 / ((1:ℤ):ℝ) > 1.00001) ∧
      (Real.log (if (1e300:ℝ) > 0 then (1e300:ℝ) else 1) +
        (((1:ℤ):ℝ) * 1000) * Real.log (if ((1:ℝ) + 1 / ((1:ℤ):ℝ)) > 1
          then (1:ℝ) + 1 / ((1:ℤ):ℝ) else 1) > 700)))]
  have hpow : ((1:ℝ) + 1 / ((1:ℤ):ℝ)) ^ (((1:ℤ):ℝ) * 1000) =
      2 ^ (1000:ℝ) := by
    push_cast
    norm_num
  rw [hpow]

/-- The annuity term is inactive when the contribution amount is 0. -/
theorem ann_none : annuityFV 1 1000 false 1 0 0 = some (0, 0) := by
  unfold annuityFV
  rw [if_neg (by norm_num : ¬ ((0:ℝ) > 0 ∧ (0:ℤ) > 0 ∧ (1000:ℝ) > 0))]

/-- The new calculator on the overflow scenario: it computes the full
power `1e300 * 2^1000` instead of returning the overflow sentinel. -/
theorem fv_run_big : future_value_with_contributions 1e300 1 1000 (.int 1) 0
    (.int 0) =
    .ok (.val3 (1e300 * 2 ^ (1000:ℝ))
      (max 0 (1e300 * 2 ^ (1000:ℝ) - 1e300)) 0) := by
  unfold future_value_with_contributions
  simp only
  rw [if_neg (by norm_num : ¬ (1e300:ℝ) < 0)]
  rw [if_neg (by norm_num : ¬ (1:ℝ) < 0)]
  rw [if_neg (by norm_num : ¬ (1000:ℝ) < 0)]
  rw [if_neg (by norm_num : ¬ (0:ℝ) < 0)]
  rw [if_neg (by norm_num : ¬ (0:ℤ) < 0)]
  rw [if_neg (by norm_num : ¬ (1:ℤ) ≤ 0)]
  simp only
  rw [show (decide (CompoundType.int 1 = CompoundType.str "continuously")) =
    false from rfl]
  rw [pfv_big]
  simp only
  rw [ann_none]
  simp only
  norm_num

/-- The old calculator on the overflow scenario: the guard
`exponent * log(base) > 700` compares `1000 * log 2 ≈ 693.15` against
700 and does not fire, so the power is evaluated. -/
theorem ci_run_big : compound_interest 1e300 1 1000 (.int 1) (.int 1) =
    .ok (.val (1e300 * 2 ^ (1000:ℝ))
      (max 0 (1e300 * 2 ^ (1000:ℝ) - 1e300))) := by
  unfold compound_interest
  rw [if_neg (by norm_num : ¬ (1e300:ℝ) < 0)]
  rw [if_neg (by norm_num : ¬ (1:ℝ) < 0)]
  rw [if_neg (by norm_num : ¬ (1000:ℝ) < 0)]
  simp only
  rw [if_neg (by norm_num : ¬ (1:ℤ) ≤ 0)]
  simp only
  have hb : (1:ℝ) + 1 / ((1:ℤ):ℝ) = 2 := by push_cast; norm_num
  have hguard : ¬ ((((1:ℤ):ℝ) * 1000) *
      Real.log (if ((1:ℝ) + 1 / ((1:ℤ):ℝ)) > 0 then (1:ℝ) + 1 / ((1:ℤ):ℝ)
        else 1) > 700) := by
    rw [hb, if_pos (by norm_num : (2:ℝ) > 0)]
    push_cast
    have hl2 := Real.log_two_lt_d9
    nlinarith [hl2]
  rw [if_neg hguard]
  unfold mkGR2
  have hpow : ((1:ℝ) + 1 / ((1:ℤ):ℝ)) ^ (((1:ℤ):ℝ) * 1000) =
      2 ^ (1000:ℝ) := by
    push_cast
    norm_num
  rw [hpow]

/-- The natural log of the value computed in the overflow scenario
exceeds 700, exactly the situation the spec's guard is meant to
short-circuit. -/
theorem log_big_result : (700:ℝ) < Real.log (1e300 * 2 ^ (1000:ℝ)) := by
  have h2pos : (0:ℝ) < 2 ^ (1000:ℝ) := Real.rpow_pos_of_pos (by norm_num) _
  rw [Real.log_mul (by norm_num) h2pos.ne']
  rw [Real.log_rpow (by norm_num : (0:ℝ) < 2)]
  have hlog10 : (7:ℝ) < Real.log 1e300 := by
    rw [Real.lt_log_iff_exp_lt (by norm_num : (0:ℝ) < 1e300)]
    have h7 : Real.exp 7 = Real.exp 1 ^ (7:ℕ) := by
      rw [← Real.exp_nat_mul]
      norm_num
    rw [h7]
    have hlt : Real.exp 1 ^ (7:ℕ) < 2.7182818286 ^ (7:ℕ) := by
      apply pow_lt_pow_left₀ Real.exp_one_lt_d9 (Real.exp_pos 1).le
      norm_num
    calc Real.exp 1 ^ (7:ℕ) < 2.7182818286 ^ (7:ℕ) := hlt
      _ < 1e300 := by norm_num
  have hl2 := Real.log_two_gt_d9
  nlinarith [hl2, hlog10]

/-- `principalFV` with rate 0 amounts to the principal itself. -/
theorem pfv_flat : principalFV 100 0 1 false 1 = .ok (some 100) := by
  unfold principalFV
  rw [if_pos (by norm_num : (100:ℝ) > 0)]
  rw [if_neg (by simp : ¬ (false = true))]
  rw [if_neg (by norm_num : ¬ (1:ℤ) ≤ 0)]
  rw [if_pos (rfl : (0:ℝ) = 0)]

/-- The zero-rate annuity adds the contributions without interest. -/
theorem ann_flat : annuityFV 0 1 false 1 10 1 = some (10, 10) := by
  unfold annuityFV
  rw [if_pos (by norm_num : (10:ℝ) > 0 ∧ (1:ℤ) > 0 ∧ (1:ℝ) > 0)]
  rw [if_neg (by simp : ¬ (false = true))]
  rw [if_pos (by push_cast; norm_num : (0:ℝ) / ((1:ℤ):ℝ) = 0)]
  push_cast
  norm_num

/-- A benign run of the contribution engine: principal 100, zero
rate, one year, one annual contribution of 10. -/
theorem fv_run_flat : future_value_with_contributions 100 0 1 (.int 1) 10
    (.int 1) = .ok (.val3 110 0 10) := by
  unfold future_value_with_contributions
  simp only
  rw [if_neg (by norm_num : ¬ (100:ℝ) < 0)]
  rw [if_neg (by norm_num : ¬ (0:ℝ) < 0)]
  rw [if_neg (by norm_num : ¬ (1:ℝ) < 0)]
  rw [if_neg (by norm_num : ¬ (10:ℝ) < 0)]
  rw [if_neg (by norm_num : ¬ (1:ℤ) < 0)]
  rw [if_neg (by norm_num : ¬ (1:ℤ) ≤ 0)]
  simp only
  rw [show (decide (CompoundType.int 1 = CompoundType.str "continuously")) =
    false from rfl]
  rw [pfv_flat]
  simp only
  rw [ann_flat]
  simp only
  norm_num

/-- The future value of the initial principal is at least the
principal, for a valid discrete compounding run. -/
theorem principalFV_ge (P r t : ℝ) (n : ℤ) (hP : 0 ≤ P) (hr : 0 ≤ r)
    (ht : 0 ≤ t) (hn : 1 ≤ n) :
    ∀ x, principalFV P r t false n = .ok (some x) → P ≤ x := by
  unfold principalFV
  by_cases hP0 : P > 0
  · rw [if_pos hP0, if_neg (by simp : ¬ (false = true)),
      if_neg (by omega : ¬ n ≤ 0)]
    by_cases hr0 : r = 0
    · rw [if_pos hr0]
      intro x hx
      simp at hx
      rw [← hx]
    · rw [if_neg hr0]
      simp only
      by_cases hguard : ((n:ℝ) * t > 10000) ∧ ((1:ℝ) + r / (n:ℝ) > 1.00001) ∧
          (Real.log (if P > 0 then P else 1) +
            ((n:ℝ) * t) * Real.log (if (1:ℝ) + r / (n:ℝ) > 1
              then (1:ℝ) + r / (n:ℝ) else 1) > 700)
      · rw [if_pos hguard]
        intro x hx
        simp at hx
      · rw [if_neg hguard]
        intro x hx
        simp at hx
        rw [← hx]
        have hnR : (1:ℝ) ≤ (n:ℝ) := by exact_mod_cast hn
        have hbase : (1:ℝ) ≤ 1 + r / (n:ℝ) := by
          have : 0 ≤ r / (n:ℝ) := by positivity
          linarith
        have hexp : (0:ℝ) ≤ (n:ℝ) * t := by positivity
        have hge1 : (1:ℝ) ≤ (1 + r / (n:ℝ)) ^ ((n:ℝ) * t) :=
          Real.one_le_rpow hbase hexp
        exact le_mul_of_one_le_right hP hge1
  · rw [if_neg hP0]
    intro x hx
    simp at hx
    rw [← hx]
    linarith [not_lt.mp hP0]

/-- The annuity term is nonnegative; when the contribution frequency
does not exceed the compounding frequency and there is at least one
whole compounding period, it is at least the total contributions
(Bernoulli's inequality). -/
theorem annuityFV_facts (r t c : ℝ) (n f : ℤ) (hr : 0 ≤ r) (ht : 0 ≤ t)
    (hc : 0 ≤ c) (hn : 1 ≤ n) :
    ∀ a tc, annuityFV r t false n c f = some (a, tc) →
      0 ≤ a ∧ (f ≤ n → 1 ≤ (n:ℝ) * t → tc ≤ a) := by
  unfold annuityFV
  have hnR : (1:ℝ) ≤ (n:ℝ) := by exact_mod_cast hn
  by_cases hact : c > 0 ∧ f > 0 ∧ t > 0
  · rw [if_pos hact, if_neg (by simp : ¬ (false = true))]
    by_cases hi0 : r / (n:ℝ) = 0
    · rw [if_pos hi0]
      intro a tc h
      simp at h
      obtain ⟨ha, htc⟩ := h
      constructor
      · rw [← ha]
        have : (0:ℝ) ≤ (n:ℝ) * t := by positivity
        positivity
      · intro hfn hnt
        rw [← ha, ← htc]
        have hfR : (f:ℝ) ≤ (n:ℝ) := by exact_mod_cast hfn
        calc c * (f:ℝ) * t ≤ c * (n:ℝ) * t :=
              mul_le_mul_of_nonneg_right
                (mul_le_mul_of_nonneg_left hfR hc) ht
          _ = c * ((n:ℝ) * t) := by ring
    · rw [if_neg hi0]
      intro a tc h
      simp at h
      obtain ⟨ha, htc⟩ := h
      have hi : 0 < r / (n:ℝ) := by
        rcases lt_or_eq_of_le (by positivity : (0:ℝ) ≤ r / (n:ℝ)) with h' | h'
        · exact h'
        · exact absurd h'.symm hi0
      have hbase : (1:ℝ) < 1 + r / (n:ℝ) := by linarith
      have hfv0 : (0:ℝ) ≤ ((1 + r / (n:ℝ)) ^ ((n:ℝ) * t) - 1) / (r / (n:ℝ)) := by
        have h1 : (1:ℝ) ≤ (1 + r / (n:ℝ)) ^ ((n:ℝ) * t) :=
          Real.one_le_rpow hbase.le (by positivity)
        have h2 : (0:ℝ) ≤ (1 + r / (n:ℝ)) ^ ((n:ℝ) * t) - 1 := by linarith
        positivity
      constructor
      · rw [← ha]
        exact mul_nonneg hc hfv0
      · intro hfn hnt
        rw [← ha, ← htc]
        set i := r / (n:ℝ) with hidef
        have hbern : 1 + ((n:ℝ) * t) * i ≤ (1 + i) ^ ((n:ℝ) * t) :=
          one_add_mul_self_le_rpow_one_add (by linarith) hnt
        have hfv : (n:ℝ) * t ≤ ((1 + i) ^ ((n:ℝ) * t) - 1) / i := by
          rw [le_div_iff₀ hi]
          linarith
        have hfR : (f:ℝ) ≤ (n:ℝ) := by exact_mod_cast hfn
        calc c * (f:ℝ) * t ≤ c * (n:ℝ) * t :=
              mul_le_mul_of_nonneg_right
                (mul_le_mul_of_nonneg_left hfR hc) ht
          _ = c * ((n:ℝ) * t) := by ring
          _ ≤ c * (((1 + i) ^ ((n:ℝ) * t) - 1) / i) :=
              mul_le_mul_of_nonneg_left hfv hc
  · rw [if_neg hact]
    intro a tc h
    simp only [Option.some.injEq, Prod.mk.injEq] at h
    obtain ⟨ha, htc⟩ := h
    rw [← ha, ← htc]
    exact ⟨le_refl 0, fun _ _ => le_refl 0⟩

/-! ## Claim theorems: growth engines -/

/-- C3 counterexample: at `computeGrowth(1e300, 1.0, 1000, 1)` neither
growth implementation returns the overflow sentinel in the real-valued
model: the old calculator's guard compares `1000 * log 2 ≈ 693.15`
against 700 and does not fire, and the new calculator's guard
additionally requires `exponent > 10000`, so both evaluate the power
instead of short-circuiting. -/
theorem C3_counterexample :
    compound_interest 1e300 1 1000 (.int 1) (.int 1) ≠ .ok .overflow ∧
    future_value_with_contributions 1e300 1 1000 (.int 1) 0 (.int 0) ≠
      .ok .overflow := by
  constructor
  · rw [ci_run_big]
    simp
  · rw [fv_run_big]
    simp

/-- C3 amended: at `(1e300, 1.0, 1000, 1)` the estimated natural log
of the result does exceed 700, but the code does not short-circuit
before evaluating the power: both implementations compute
`1e300 * 2^1000`.  (In IEEE floats that multiplication overflows to
infinity, so the sentinel is produced only by float-inf propagation,
not by the proactive log-based guard the claim describes.) -/
theorem C3_amended_guard_does_not_fire :
    compound_interest 1e300 1 1000 (.int 1) (.int 1) =
      .ok (.val (1e300 * 2 ^ (1000:ℝ))
        (max 0 (1e300 * 2 ^ (1000:ℝ) - 1e300))) ∧
    future_value_with_contributions 1e300 1 1000 (.int 1) 0 (.int 0) =
      .ok (.val3 (1e300 * 2 ^ (1000:ℝ))
        (max 0 (1e300 * 2 ^ (1000:ℝ) - 1e300)) 0) ∧
    700 < Real.log (1e300 * 2 ^ (1000:ℝ)) :=
  ⟨ci_run_big, fv_run_big, log_big_result⟩

/-- C6 counterexample: all the claim's hypotheses hold at
`(principal 0, rate 3, time 0.5, n 1, contribution 6, frequency 1)`,
yet `finalAmount = 2 < 3 = principal + totalContributions`: with less
than one compounding period the discrete annuity factor
`((1+i)^(n·t) - 1)/i` is smaller than `n·t`. -/
theorem C6_counterexample :
    future_value_with_contributions 0 3 0.5 (.int 1) 6 (.int 1) =
      .ok (.val3 2 0 3) ∧
    ¬ ((0:ℝ) + 3 ≤ 2) :=
  ⟨fv_run_half, by norm_num⟩

/-- C6 amended: for nonnegative inputs with discrete compounding
`n ≥ 1`, any non-overflowing result has `finalAmount ≥ principal`;
the stronger bound `finalAmount ≥ principal + totalContributions`
additionally needs the contribution frequency to not exceed the
compounding frequency (the in-repo caller always passes them equal)
and at least one whole compounding period, `n * time ≥ 1` — it fails
for fractional periods `0 < n * time < 1` at positive rates. -/
theorem C6_amended_growth_bound (P r t c : ℝ) (n f : ℤ)
    (hP : 0 ≤ P) (hr : 0 ≤ r) (ht : 0 ≤ t) (hn : 1 ≤ n) (hc : 0 ≤ c)
    (hf : 0 ≤ f) :
    (∀ a i tc, future_value_with_contributions P r t (.int n) c (.int f) =
        .ok (.val3 a i tc) → P ≤ a) ∧
    (f ≤ n → 1 ≤ (n:ℝ) * t →
      ∀ a i tc, future_value_with_contributions P r t (.int n) c (.int f) =
        .ok (.val3 a i tc) → P + tc ≤ a) := by
  unfold future_value_with_contributions
  simp only
  rw [if_neg (not_lt.mpr hP), if_neg (not_lt.mpr hr), if_neg (not_lt.mpr ht),
    if_neg (not_lt.mpr hc), if_neg (not_lt.mpr hf),
    if_neg (by omega : ¬ n ≤ 0)]
  simp only
  rw [show (decide (CompoundType.int n = CompoundType.str "continuously")) =
    false from rfl]
  cases hpfv : principalFV P r t false n with
  | error e =>
    constructor
    · intro a i tc h
      simp at h
    · intro _ _ a i tc h
      simp at h
  | ok o =>
    cases o with
    | none =>
      constructor
      · intro a i tc h
        simp at h
      · intro _ _ a i tc h
        simp at h
    | some x =>
      simp only
      cases hann : annuityFV r t false n c f with
      | none =>
        constructor
        · intro a i tc h
          simp at h
        · intro _ _ a i tc h
          simp at h
      | some pr =>
        obtain ⟨afv, tc'⟩ := pr
        simp only
        have hx := principalFV_ge P r t n hP hr ht hn x hpfv
        have hafacts := annuityFV_facts r t c n f hr ht hc hn afv tc' hann
        constructor
        · intro a i tc h
          simp only [Except.ok.injEq, GR3.val3.injEq] at h
          obtain ⟨ha, hi, htc⟩ := h
          rw [← ha]
          linarith [hafacts.1]
        · intro hfn hnt a i tc h
          simp only [Except.ok.injEq, GR3.val3.injEq] at h
          obtain ⟨ha, hi, htc⟩ := h
          rw [← ha, ← htc]
          linarith [hafacts.2 hfn hnt]

/-- C6 amended witness: on `(100, rate 0, 1 year, n 1, contribution
10, frequency 1)` the result is 110 and both bounds hold. -/
theorem C6_amended_growth_bound_witness :
    future_value_with_contributions 100 0 1 (.int 1) 10 (.int 1) =
      .ok (.val3 110 0 10) ∧
    (100:ℝ) ≤ 110 ∧ (100:ℝ) + 10 ≤ 110 :=
  ⟨fv_run_flat,
   (C6_amended_growth_bound 100 0 1 10 1 1 (by norm_num) (by norm_num)
     (by norm_num) (by norm_num) (by norm_num) (by norm_num)).1 110 0 10
     fv_run_flat,
   (C6_amended_growth_bound 100 0 1 10 1 1 (by norm_num) (by norm_num)
     (by norm_num) (by norm_num) (by norm_num) (by norm_num)).2 le_rfl
     (by norm_num) 110 0 10 fv_run_flat⟩

/-- C10: passing a `float` as `contribution_frequency` — including a
numerically integral one such as `12.0` — raises `TypeError` before
any computation, whatever the other arguments are. -/
theorem C10_frequency_type_check :
    (∀ (P r t : ℝ) (ct : CompoundType) (c x : ℝ),
      future_value_with_contributions P r t ct c (.float x) =
        .error (.typeError "Contribution frequency must be an integer.")) ∧
    future_value_with_contributions 1000 0.05 10 (.int 12) 100 (.float 12) =
      .error (.typeError "Contribution frequency must be an integer.") :=
  ⟨fun _ _ _ _ _ _ => rfl, rfl⟩
